import Mathlib

/-!
# Verification of the BrailleServer core

Shallow embedding of the BrailleServer browser client's core components:

* the braille line model (`src/js/runner.js`, `src/js/words.js`,
  the `BrailleUI` layer),
* the connection manager (`src/js/braillebridge.js`),
* the activity lifecycle runner (`/js/activity-runner.js` variants),
* the print-to-braille transliterations
  (`src/components/braille-monitor/braillemonitor.js`, `src/js/words.js`).

Each definition is a direct translation of the corresponding JavaScript
function; stateful code is modelled by explicit state records and step
functions, and observable effects (device sends, observer notifications,
emitted events) are logged in the state.
-/

namespace BrailleServer

/-! ## Braille line model: text normalization

`compactSingleLine` (runner.js / words.js):
`String(text ?? "").replace(/\s+/g, " ").trim()`.
JavaScript `\s` matches whitespace; we model the ASCII whitespace
characters, which are the only ones the repository ever feeds in. -/

/-- Whitespace as matched by the JavaScript regex `\s` (ASCII part). -/
def isJsWs (c : Char) : Bool :=
  c = ' ' || c = '\t' || c = '\n' || c = '\r' || c = '\x0b' || c = '\x0c'

/-- `replace(/\s+/g, " ")`: collapse every whitespace run to a single space.
The boolean flag records whether we are inside a whitespace run. -/
def collapseWsAux : Bool → List Char → List Char
  | _, [] => []
  | inRun, c :: rest =>
    if isJsWs c then
      if inRun then collapseWsAux true rest
      else ' ' :: collapseWsAux true rest
    else c :: collapseWsAux false rest

/-- `replace(/\s+/g, " ")` on a whole string (as a char list). -/
def collapseWs (l : List Char) : List Char := collapseWsAux false l

/-- `String.prototype.trim()`: strip leading and trailing whitespace. -/
def trimWs (l : List Char) : List Char :=
  ((l.dropWhile isJsWs).reverse.dropWhile isJsWs).reverse

/-- `compactSingleLine(text)` from runner.js (identical copy in words.js). -/
def compactSingleLine (l : List Char) : List Char := trimWs (collapseWs l)

/-- `String.prototype.toLowerCase()`, character by character. -/
def strLower (s : String) : String := String.mk (s.data.map Char.toLower)

/-- `line.padEnd(cells, " ").substring(0, cells)`. -/
def padTrunc (cells : Nat) (l : List Char) : List Char :=
  (l ++ List.replicate (cells - l.length) ' ').take cells

/-- `BRAILLE_CELLS` (runner.js / words.js) and `displayCells`
(braillebridge.js, BrailleUI): the display width. -/
def CELLS : Nat := 40

/-- `normalizeBrailleText(text)` from runner.js lines 360-364 (identical in
words.js): collapse + trim; an empty result stays empty, otherwise
pad/truncate to `BRAILLE_CELLS`. -/
def normalizeBrailleText (l : List Char) : List Char :=
  let single := compactSingleLine l
  if single = [] then [] else padTrunc CELLS single

/-- `BrailleUIClass._normalizeLine(line)` (BrailleUI source): with
`padToCells` true, `String(line || "").padEnd(cells, " ").substring(0, cells)`;
otherwise only truncation. -/
def uiNormalizeLine (cells : Nat) (padToCells : Bool) (l : List Char) : List Char :=
  if padToCells then padTrunc cells l
  else if cells < l.length then l.take cells else l

/-! ## Runner-side line state: `updateBrailleLine` (runner.js 366-390)

State carries the current buffer (`brailleLine`) plus a log of outbound
device requests: `sendText` payloads and the number of `clearDisplay`
calls. The braille-monitor mirror is UI-only and carries no device write,
so it is not part of the outbound count. -/

/-- Module-level state of runner.js around the braille line. -/
structure LineState where
  buffer : List Char
  sent : List (List Char)
  clears : Nat
deriving DecidableEq, Repr

/-- `updateBrailleLine(text)` from runner.js: computes the normalized
buffer; if unchanged it returns without any send; otherwise it stores it
and issues `clearDisplay()` for an empty buffer or `sendText(next)`
otherwise. -/
def updateBrailleLine (t : List Char) (s : LineState) : LineState :=
  let next := normalizeBrailleText t
  if next = s.buffer then s
  else
    { buffer := next
      sent := if next = [] then s.sent else s.sent ++ [next]
      clears := if next = [] then s.clears + 1 else s.clears }

/-- Number of outbound device requests issued so far. -/
def outboundCount (s : LineState) : Nat := s.sent.length + s.clears

/-! ## BrailleUI layer (`BrailleUIClass`, the unnamed BrailleUI source)

`setText` clears page state, sets the normalized line and then calls
`this._bridge.sendText(this._line, ...)` unconditionally — there is no
comparison against the previous buffer. `clear` resets the internal line
to the empty string. The token map is an index→token store built by
`setTokens` via `_buildLineFromTokens`. -/

/-- State of a `BrailleUIClass` instance (the fields the claims touch). -/
structure UIState where
  line : List Char
  tokenMap : List (Nat × String)
  sent : List (List Char)
  clears : Nat
deriving DecidableEq, Repr

/-- `_indexToToken[index]` lookup (a plain JS object keyed by index). -/
def tokenLookup (map : List (Nat × String)) (i : Nat) : Option String :=
  (map.find? (fun p => p.1 = i)).map (·.2)

/-- `BrailleUIClass.setText(text)`: clear page state, set the normalized
line, drop any token map, and always send the line to the bridge. -/
def uiSetText (cells : Nat) (padToCells : Bool) (t : List Char) (s : UIState) : UIState :=
  let nl := uiNormalizeLine cells padToCells t
  { line := nl, tokenMap := [], sent := s.sent ++ [nl], clears := s.clears }

/-- `BrailleUIClass.clear()`: empty the internal line and token map and
issue a `clearDisplay` request. -/
def uiClear (s : UIState) : UIState :=
  { line := [], tokenMap := [], sent := s.sent, clears := s.clears + 1 }

/-! ## Token layout: `BrailleUIClass._buildLineFromTokens(tokens)`

Lays tokens left to right separated by single spaces, breaking out of the
loop as soon as a token would exceed `cells`; every character position of
a placed token (spaces inside the token included) is mapped to the token. -/

/-- One loop step of `_buildLineFromTokens`; returns the final
`(line, map)` when the next token does not fit (the JS `break`). -/
def buildLineAux (cells : Nat) : List Char → List (Nat × String) → List String →
    List Char × List (Nat × String)
  | line, map, [] => (line, map)
  | line, map, t :: rest =>
    let token := t.data
    let toAdd := if line.length = 0 then token else ' ' :: token
    if cells < line.length + toAdd.length then (line, map)
    else
      let startIndex := line.length + (if line.length = 0 then 0 else 1)
      let entries := (List.range token.length).map (fun i => (startIndex + i, t))
      buildLineAux cells (line ++ toAdd) (map ++ entries) rest

/-- `_buildLineFromTokens(tokens)` with the final pad/truncate step
(options default: `padToCells = true`). -/
def buildLineFromTokens (cells : Nat) (padToCells : Bool) (tokens : List String) :
    List Char × List (Nat × String) :=
  let (line, map) := buildLineAux cells [] [] tokens
  let line' :=
    if line.length < cells ∧ padToCells then line ++ List.replicate (cells - line.length) ' '
    else if cells < line.length then line.take cells else line
  (line', map)

/-! ## Word lookup: `BrailleUIClass.getWordAt(index, { withBounds: true })` -/

/-- Result of `getWordAt` with `withBounds: true`. -/
structure WordInfo where
  word : String
  start : Nat
  stop : Nat
deriving DecidableEq, Repr

/-- `while (start > 0 && !isSep(line.charAt(start - 1))) start--`. -/
def scanSepLeft (line : List Char) (isSep : Char → Bool) : Nat → Nat
  | 0 => 0
  | n + 1 => if isSep (line.getD n ' ') then n + 1 else scanSepLeft line isSep n

/-- `while (end < line.length && !isSep(line.charAt(end))) end++`,
structurally recursing over the yet-unseen suffix of the line. -/
def scanSepRightAux (isSep : Char → Bool) : List Char → Nat → Nat
  | [], e => e
  | c :: rest, e => if isSep c then e else scanSepRightAux isSep rest (e + 1)

/-- The right scan started at position `e` of `line`. -/
def scanSepRight (line : List Char) (isSep : Char → Bool) (e : Nat) : Nat :=
  scanSepRightAux isSep (line.drop e) e

/-- `while (start > 0 && this._indexToToken[start - 1] === token) start--`. -/
def scanTokLeft (map : List (Nat × String)) (token : String) : Nat → Nat
  | 0 => 0
  | n + 1 => if tokenLookup map n = some token then scanTokLeft map token n else n + 1

/-- `while (end < len && this._indexToToken[end] === token) end++`
(fuel = number of positions left up to `len`). -/
def scanTokRightAux (map : List (Nat × String)) (token : String) : Nat → Nat → Nat
  | 0, e => e
  | fuel + 1, e =>
    if tokenLookup map e = some token then scanTokRightAux map token fuel (e + 1) else e

/-- The token right scan started at `e` with line length `len`. -/
def scanTokRight (map : List (Nat × String)) (token : String) (len e : Nat) : Nat :=
  scanTokRightAux map token (len - e) e

/-- The default `wordSeparators: /\s+/` option tested one character at a
time, with the charAt-out-of-range quirk (`!ch → separator`) made
irrelevant by the bound guards. -/
def defaultSep : Char → Bool := isJsWs

/-- The fallback branch of `getWordAt` ("2) Fallback: infer from
spaces"): return nothing on a separator, otherwise scan to the nearest
separators, take `line.substring(start, end)` and trim it; an
all-separator result yields nothing. -/
def getWordAtScan (line : List Char) (isSep : Char → Bool) (i : Nat) : Option WordInfo :=
  if isSep (line.getD i ' ') then none
  else
    let s := scanSepLeft line isSep i
    let e := scanSepRight line isSep (i + 1)
    let w := trimWs ((line.drop s).take (e - s))
    if w = [] then none else some ⟨String.mk w, s, e⟩

/-- `BrailleUIClass.getWordAt(index, { withBounds: true })`. The index is
the raw (integer) cursor value; a falsy token-map entry (`""`, which
`_buildLineFromTokens` never stores) falls through to the separator scan,
as in the JS truthiness test `if (token)`. -/
def getWordAt (line : List Char) (map : List (Nat × String)) (isSep : Char → Bool)
    (index : Int) : Option WordInfo :=
  if index < 0 ∨ (line.length : Int) ≤ index then none
  else
    let i := index.toNat
    match tokenLookup map i with
    | some token =>
      if token = "" then getWordAtScan line isSep i
      else
        let s := scanTokLeft map token i
        let e := scanTokRight map token line.length (i + 1)
        some ⟨token, s, e⟩
    | none => getWordAtScan line isSep i

/-! ## Runner-side word lookup and cursor dispatch (runner.js) -/

/-- `while (end < len - 1 && text[end + 1] !== " ") end++` from
`computeWordAt` (inclusive end pointer), with fuel. -/
def cwRightAux (text : List Char) : Nat → Nat → Nat
  | 0, e => e
  | fuel + 1, e =>
    if e + 1 < text.length ∧ text.getD (e + 1) ' ' ≠ ' ' then cwRightAux text fuel (e + 1)
    else e

/-- `while (start > 0 && text[start - 1] !== " ") start--` from
`computeWordAt`. -/
def cwLeft (text : List Char) : Nat → Nat
  | 0 => 0
  | n + 1 => if text.getD n ' ' = ' ' then n + 1 else cwLeft text n

/-- `computeWordAt(text, index)` from runner.js lines 397-406 (identical
copy in words.js): scans to the nearest spaces and trims the substring. -/
def computeWordAt (text : List Char) (index : Int) : String :=
  if text = [] then ""
  else if index < 0 ∨ (text.length : Int) ≤ index then ""
  else
    let i := index.toNat
    let s := cwLeft text i
    let e := cwRightAux text text.length i
    String.mk (trimWs ((text.drop s).take (e + 1 - s)))

/-- The payload handed to `activeActivityModule.onCursor` by
`dispatchCursorSelection` (the `source` string is omitted: it never
influences control flow). -/
structure ForwardedCursor where
  index : Option Int
  letter : Char
  word : String
deriving DecidableEq, Repr

/-- `dispatchCursorSelection(info, source)` from runner.js lines 408-418,
for the bridge path where `info` carries only an index. Returns the
payload forwarded to the active module's `onCursor`, or `none` when no
module with an `onCursor` handler is active. `brailleLine[index] || " "`
yields the character in range and `" "` otherwise. -/
def dispatchCursorSelection (line : List Char) (hasHandler : Bool)
    (infoIndex : Option Int) : Option ForwardedCursor :=
  let letter : Char :=
    match infoIndex with
    | some i => if 0 ≤ i ∧ i < (line.length : Int) then line.getD i.toNat ' ' else ' '
    | none => ' '
  let word : String :=
    match infoIndex with
    | some i => computeWordAt line i
    | none => ""
  if hasHandler then some ⟨infoIndex, letter, word⟩ else none

/-! ## Print-to-braille transliteration

Two transliterations live in the corpus:
* `coerceCells` in braillemonitor.js — a stateful left-to-right pass that
  repairs capital signs and emits the number sign once per digit run;
* `toBrailleUnicode` in words.js — a per-character table lookup whose
  digit entries each carry their own number sign. -/

/-- `BRAILLE_BLANK` (U+2800). -/
def brailleBlank : Char := '⠀'

/-- `BRAILLE_UNKNOWN` fallback glyph. -/
def brailleUnknown : Char := '⣿'

/-- `SIGN_NUMBER` (dots 3456). -/
def signNumber : Char := '⠼'

/-- `normalizeLang(tag)` (braillemonitor.js): trim, lowercase, take the
part before the first `"-"` (`t.split("-")[0]`), default to `"nl"`. -/
def normalizeLang (tag : String) : String :=
  let base := String.mk ((strLower (String.mk (trimWs tag.data))).data.takeWhile (· ≠ '-'))
  if base = "nl" ∨ base = "en" then base else "nl"

/-- `SIGN_CAPITAL_NL` / `SIGN_CAPITAL_EN` chosen by language. -/
def capitalSignForLang (lang : String) : Char :=
  if normalizeLang lang = "nl" then '⠨' else '⠠'

/-- `BRAILLE_LETTERS` (braillemonitor.js): a-z base glyphs. -/
def brailleLetter : Char → Option Char
  | 'a' => some '⠁' | 'b' => some '⠃' | 'c' => some '⠉' | 'd' => some '⠙'
  | 'e' => some '⠑' | 'f' => some '⠋' | 'g' => some '⠛' | 'h' => some '⠓'
  | 'i' => some '⠊' | 'j' => some '⠚' | 'k' => some '⠅' | 'l' => some '⠇'
  | 'm' => some '⠍' | 'n' => some '⠝' | 'o' => some '⠕' | 'p' => some '⠏'
  | 'q' => some '⠟' | 'r' => some '⠗' | 's' => some '⠎' | 't' => some '⠞'
  | 'u' => some '⠥' | 'v' => some '⠧' | 'w' => some '⠺' | 'x' => some '⠭'
  | 'y' => some '⠽' | 'z' => some '⠵'
  | _ => none

/-- `BRAILLE_DIGITS` (braillemonitor.js): digits map to a-j glyphs. -/
def brailleDigitGlyph : Char → Option Char
  | '1' => some '⠁' | '2' => some '⠃' | '3' => some '⠉' | '4' => some '⠙'
  | '5' => some '⠑' | '6' => some '⠋' | '7' => some '⠛' | '8' => some '⠓'
  | '9' => some '⠊' | '0' => some '⠚'
  | _ => none

/-- `BRAILLE_PUNCT` (braillemonitor.js); cells are 1-2 glyphs. -/
def braillePunct : Char → Option (List Char)
  | ' ' => some [brailleBlank]
  | '.' => some ['⠲'] | ',' => some ['⠂'] | ';' => some ['⠆'] | ':' => some ['⠒']
  | '?' => some ['⠦'] | '!' => some ['⠖'] | '-' => some ['⠤'] | '\'' => some ['⠄']
  | '"' => some ['⠶'] | '/' => some ['⠌']
  | '(' => some ['⠐', '⠣'] | ')' => some ['⠐', '⠜']
  | _ => none

/-- `isAsciiDigit(ch)` from braillemonitor.js. -/
def isAsciiDigit (c : Char) : Bool := '0' ≤ c && c ≤ '9'

/-- `BRAILLE_DIGITS[ch] || BRAILLE_UNKNOWN` in the digit branch. -/
def digitCellOf (c : Char) : Char := (brailleDigitGlyph c).getD brailleUnknown

/-- One pass of `coerceCells(text, cells, lang)` (braillemonitor.js lines
151-224), carrying the `inNumberRun` flag. `cells` is the translator
output (`null` entries become `""`, then empty cells default to the blank
glyph). Each output cell is the 1-2 glyph string for one print char. -/
def coerceAux (cap : Char) : Bool → List Char → List (Option (List Char)) → List (List Char)
  | _, [], _ => []
  | inRun, ch :: rest, cs =>
    let cellRaw : List Char := match cs.head? with
      | some (some c) => c
      | _ => []
    let cell := if cellRaw = [] then [brailleBlank] else cellRaw
    let csT := cs.drop 1
    if ch = ' ' then
      [brailleBlank] :: coerceAux cap false rest csT
    else if isAsciiDigit ch then
      (if inRun then [digitCellOf ch] else signNumber :: [digitCellOf ch])
        :: coerceAux cap true rest csT
    else
      match braillePunct ch with
      | some p => p :: coerceAux cap false rest csT
      | none =>
        match brailleLetter ch.toLower with
        | some base =>
          (if ch ≠ ch.toLower then [cap, base] else [base]) :: coerceAux cap false rest csT
        | none =>
          -- `out[i] = cell || BRAILLE_UNKNOWN` (cell is nonempty here)
          (if cell = [] then [brailleUnknown] else cell) :: coerceAux cap false rest csT

/-- `coerceCells(text, cells, lang)`. -/
def coerceCells (lang : String) (text : List Char) (cells : List (Option (List Char))) :
    List (List Char) :=
  coerceAux (capitalSignForLang lang) false text cells

/-- `BRAILLE_UNICODE_MAP` from src/js/words.js lines 48-69: note each
digit entry carries its own number sign. -/
def brailleUnicodeMap : Char → Option String
  | 'a' => some "⠁" | 'b' => some "⠃" | 'c' => some "⠉" | 'd' => some "⠙"
  | 'e' => some "⠑" | 'f' => some "⠋" | 'g' => some "⠛" | 'h' => some "⠓"
  | 'i' => some "⠊" | 'j' => some "⠚" | 'k' => some "⠅" | 'l' => some "⠇"
  | 'm' => some "⠍" | 'n' => some "⠝" | 'o' => some "⠕" | 'p' => some "⠏"
  | 'q' => some "⠟" | 'r' => some "⠗" | 's' => some "⠎" | 't' => some "⠞"
  | 'u' => some "⠥" | 'v' => some "⠧" | 'w' => some "⠺" | 'x' => some "⠭"
  | 'y' => some "⠽" | 'z' => some "⠵"
  | '1' => some "⠼⠁" | '2' => some "⠼⠃" | '3' => some "⠼⠉" | '4' => some "⠼⠙"
  | '5' => some "⠼⠑" | '6' => some "⠼⠋" | '7' => some "⠼⠛" | '8' => some "⠼⠓"
  | '9' => some "⠼⠊" | '0' => some "⠼⠚"
  | ' ' => some "⠀" | '.' => some "⠲" | ',' => some "⠂" | ';' => some "⠆"
  | ':' => some "⠒" | '?' => some "⠦" | '!' => some "⠖" | '-' => some "⠤"
  | '\'' => some "⠄" | '"' => some "⠶" | '(' => some "⠐⠣" | ')' => some "⠐⠜"
  | '/' => some "⠌"
  | _ => none

/-- `toBrailleUnicode(text)` from src/js/words.js lines 139-151: empty
input renders as a dash; every other character is looked up directly,
then lowercased, then replaced by the unknown glyph. -/
def toBrailleUnicode (t : String) : String :=
  if t.data = [] then "–"
  else String.join (t.data.map (fun ch =>
    match brailleUnicodeMap ch with
    | some g => g
    | none =>
      match brailleUnicodeMap ch.toLower with
      | some g => g
      | none => "⣿"))

/-! ## Connection manager: reconnect policy (braillebridge.js)

`_currentDelay` starts at `reconnectDelay` (2000 ms). A dropped
connection schedules a reconnect after `_currentDelay`; when that timer
fires, `_currentDelay` is doubled and capped at `maxReconnectDelay`
(10000 ms) before the next attempt. `ws.onopen` resets `_currentDelay`
to `reconnectDelay`. One `fail` event below is one scheduled-and-fired
reconnect cycle; `succeed` is a successful `onopen`. -/

/-- Reconnect bookkeeping of a `Bridge` plus the log of delays at which
reconnects were scheduled. -/
structure BridgeState where
  currentDelay : Nat
  scheduled : List Nat
deriving DecidableEq, Repr

/-- Fresh bridge: `this._currentDelay = this._config.reconnectDelay`. -/
def initBridge (initialDelay : Nat) : BridgeState := ⟨initialDelay, []⟩

/-- Connection attempt outcomes driving the reconnect policy. -/
inductive BridgeEv where
  | fail
  | succeed
deriving DecidableEq, Repr

/-- One event step: a failure runs `_scheduleReconnect` (logging the
current delay) and then the timer callback's
`Math.min(this._currentDelay * 2, maxReconnectDelay)`; a success runs the
`ws.onopen` reset. -/
def bridgeStep (initialDelay maxDelay : Nat) (s : BridgeState) : BridgeEv → BridgeState
  | .fail =>
    { currentDelay := min (s.currentDelay * 2) maxDelay
      scheduled := s.scheduled ++ [s.currentDelay] }
  | .succeed => { s with currentDelay := initialDelay }

/-- Run a sequence of connection outcomes. -/
def bridgeRun (initialDelay maxDelay : Nat) (s : BridgeState) (es : List BridgeEv) :
    BridgeState :=
  es.foldl (bridgeStep initialDelay maxDelay) s

/-! ## Connection manager: message normalization (`Bridge._handleWsMessage`)

Parsed JSON messages are dynamically shaped JS objects; we model the
fields the handler reads as optional JS values. `tyLower`/`tyUpper`
stand for the wire fields `type`/`Type`. -/

/-- A JavaScript value as far as `_handleWsMessage` inspects it. -/
inductive JVal where
  | str (s : String)
  | num (n : Int)
  | boolean (b : Bool)
  | jnull
deriving DecidableEq, Repr

/-- `a ?? b`: `b` when `a` is `undefined` (`none`) or `null`. -/
def jsCoalesce (a b : Option JVal) : Option JVal :=
  match a with
  | none => b
  | some JVal.jnull => b
  | some v => some v

/-- `String(v)` for the values the handler stringifies. -/
def jsString : JVal → String
  | .str s => s
  | .num n => toString n
  | .boolean b => if b then "true" else "false"
  | .jnull => "null"

/-- The fields of a parsed inbound message that `_handleWsMessage`
reads (`none` = the field is absent). -/
structure WireMsg where
  kindLower : Option JVal := none      -- msg.kind
  kindUpper : Option JVal := none      -- msg.Kind
  isPressLower : Option JVal := none   -- msg.isPress
  isPressUpper : Option JVal := none   -- msg.IsPress
  pressField : Option JVal := none     -- msg.press
  tyLower : Option JVal := none        -- msg.type
  tyUpper : Option JVal := none        -- msg.Type
  cursorIndexLower : Option JVal := none  -- msg.cursorIndex
  cursorIndexUpper : Option JVal := none  -- msg.CursorIndex
  indexField : Option JVal := none     -- msg.index
  btn : Option JVal := none            -- msg.btn
  nameLower : Option JVal := none      -- msg.name
  nameUpper : Option JVal := none      -- msg.Name
  buttonName : Option JVal := none     -- msg.buttonName
deriving DecidableEq, Repr

/-- `const kind = String(msg.kind ?? msg.Kind ?? "").toLowerCase()`. -/
def msgKind (m : WireMsg) : String :=
  strLower (jsString ((jsCoalesce (jsCoalesce m.kindLower m.kindUpper)
    (some (JVal.str ""))).getD (JVal.str "")))

/-- `const press = ((msg.isPress ?? msg.IsPress ?? msg.press) !== false)`. -/
def msgPress (m : WireMsg) : Bool :=
  jsCoalesce (jsCoalesce m.isPressLower m.isPressUpper) m.pressField
    ≠ some (JVal.boolean false)

/-- `const msgType = String(msg.type ?? msg.Type ?? "").toLowerCase()`. -/
def msgType (m : WireMsg) : String :=
  strLower (jsString ((jsCoalesce (jsCoalesce m.tyLower m.tyUpper)
    (some (JVal.str ""))).getD (JVal.str "")))

/-- The cursor-routing classification condition:
`kind === "cursorroutingstrip" || kind === "cursorrouting" ||
(typeof msg.Kind === "number" && msg.Kind === 1)`. -/
def isCursorKind (m : WireMsg) : Bool :=
  msgKind m = "cursorroutingstrip" || msgKind m = "cursorrouting" ||
    m.kindUpper = some (JVal.num 1)

/-- The thumb-key classification condition. -/
def isThumbKind (m : WireMsg) : Bool :=
  msgKind m = "thumbkey" || msgKind m = "thumb" || m.kindUpper = some (JVal.num 2)

/-- `msg.cursorIndex ?? msg.CursorIndex ?? msg.index ?? msg.btn`. -/
def msgIdx (m : WireMsg) : Option JVal :=
  jsCoalesce (jsCoalesce (jsCoalesce m.cursorIndexLower m.cursorIndexUpper)
    m.indexField) m.btn

/-- Does any recognized index field hold a JS number? -/
def hasNumericIndexField (m : WireMsg) : Bool :=
  [m.cursorIndexLower, m.cursorIndexUpper, m.indexField, m.btn].any
    (fun o => match o with | some (JVal.num _) => true | _ => false)

/-- Events emitted while handling one inbound message. -/
inductive BridgeEmit where
  | raw
  | message
  | brailleline
  | cursor (index : Int)
  | errCursor
  | thumbkey (nameVal : String)
  | unknown
deriving DecidableEq, Repr

/-- `Bridge._handleWsMessage` after a successful `JSON.parse`
(braillebridge.js lines 272-365): the ordered list of emitted events. -/
def handleWsMessage (m : WireMsg) : List BridgeEmit :=
  let base : List BridgeEmit := [.raw, .message]
  if msgType m = "brailleline" then base ++ [.brailleline]
  else if ¬msgPress m then base
  else if isCursorKind m then
    match msgIdx m with
    | some (JVal.num i) => base ++ [.cursor i]
    | _ => base ++ [.errCursor]
  else if isThumbKind m then
    let nm := jsString ((jsCoalesce (jsCoalesce (jsCoalesce m.nameLower m.nameUpper)
      m.buttonName) (some (JVal.str ""))).getD (JVal.str ""))
    base ++ [.thumbkey (strLower nm)]
  else base ++ [.unknown]

/-! ## Shared event emitter (`Emitter.emit`)

Both braillebridge.js and the BrailleUI layer define the same `Emitter`:
`emit` iterates the subscribed handlers in insertion order and wraps each
call in `try { fn(payload) } catch (err) { console.error(...) }`.
A handler is a `P → Except E Unit`; a thrown exception is an `error`. -/

/-- The `try { fn(payload) } catch` wrapper: an exception is logged and
swallowed. -/
def swallow {E : Type} (x : Except E Unit) : Except E Unit :=
  match x with
  | .ok u => .ok u
  | .error _ => .ok ()

/-- `Emitter.emit(eventName, payload)` over the handlers subscribed to
one event name, in an exception-propagating semantics: the result is the
per-handler call record, and an uncaught exception would surface as
`Except.error`. -/
def emitRun {P E : Type} : List (P → Except E Unit) → P → Except E (List (Except E Unit))
  | [], _ => Except.ok []
  | h :: t, p => do
    let _ ← swallow (h p)
    let rest ← emitRun t p
    Except.ok (h p :: rest)

/-! ## Activity lifecycle runner (`createActivityRunner`, /js/activity-runner.js)

We model the closure state of the factory runner (the variant at the end
of the activity-runner source; the stop-sound variant shares the same
token bookkeeping and guards). Observable effects — observer
notifications, status strings, module start/stop calls, auto-advance
invocations — are appended to a log inside the state, so "no observable
effect" is exactly "the state is unchanged".

`start` is split at its suspension point: `startRun` performs everything
up to the `await Promise.race(...)`, and `settleRun k` is the `finally`
continuation that captured token `k`. -/

/-- Observable actions of the runner. -/
inductive RunnerEv where
  | runningChange (running : Bool)  -- onRunningChange(running)
  | statusText (s : String)         -- onStatus(text)
  | moduleStart                     -- mod.start(context)
  | moduleStop (reason : String)    -- activeActivityModule.stop(payload)
  | autoAdvance                     -- onAutoAdvance()
deriving DecidableEq, Repr

/-- Closure state of `createActivityRunner` plus the effect log. -/
structure RunnerState where
  runToken : Nat
  running : Bool
  activeModule : Bool      -- activeActivityModule !== null
  hasDone : Bool           -- activeActivityDonePromise !== null
  stopDeferred : Bool      -- stopDeferred !== null
  log : List RunnerEv
deriving DecidableEq, Repr

/-- `stopActiveActivity(payload)`: call the module's `stop` (if any) and
null out the module and its completion promise. -/
def stopActiveActivity (reason : String) (s : RunnerState) : RunnerState :=
  { s with
    log := if s.activeModule then s.log ++ [.moduleStop reason] else s.log
    activeModule := false
    hasDone := false }

/-- `setRunning(next, statusText)`: set the flag and notify observers. -/
def setRunning (b : Bool) (st : String) (s : RunnerState) : RunnerState :=
  { s with running := b, log := s.log ++ [.runningChange b, .statusText st] }

/-- `cancelRun(reason)`: advance the token, resolve any pending stop
waiter, release the module, go idle. -/
def cancelRunR (reason : String) (s : RunnerState) : RunnerState :=
  setRunning false "idle"
    (stopActiveActivity reason { s with runToken := s.runToken + 1, stopDeferred := false })

/-- `start({ autoStarted })` up to its `await`: no-op without a current
context; otherwise cancel the previous run, look up the module
(`hasModule`), call its `start` (which may return a completion promise,
`modHasDone`), install a fresh stop deferred, and enter Running. -/
def startRun (hasCtx hasModule modHasDone autoStarted : Bool) (s : RunnerState) :
    RunnerState :=
  if ¬hasCtx then s
  else
    let s1 := cancelRunR "startNewRun" s
    let s2 :=
      if hasModule then
        { s1 with activeModule := true, hasDone := modHasDone, log := s1.log ++ [.moduleStart] }
      else { s1 with activeModule := false, hasDone := false }
    let s3 := { s2 with stopDeferred := true }
    setRunning true (if autoStarted then "running (auto)" else "running") s3

/-- The token a `start` call captures for its continuation: the live
token right after its internal `cancelRun`. -/
def startCapturedToken (s : RunnerState) : Nat := s.runToken + 1

/-- The `finally` continuation of `start`, captured under token `k`:
`if (token !== runToken) return;` else resolve the stop deferred, leave
Running with status "done", release the module, and fire the
auto-advance callback when auto-run is enabled at that instant. -/
def settleRun (k : Nat) (autoRunEnabled : Bool) (s : RunnerState) : RunnerState :=
  if k ≠ s.runToken then s
  else
    let s1 := { s with stopDeferred := false }
    let s2 := setRunning false "done" s1
    let s3 := stopActiveActivity "finally" s2
    if autoRunEnabled then { s3 with log := s3.log ++ [.autoAdvance] } else s3

/-- `stop(reason)`: `if (!running) return;` else resolve the stop
deferred, release the module, go idle, and advance the token. -/
def stopRun (reason : String) (s : RunnerState) : RunnerState :=
  if ¬s.running then s
  else
    let s1 := { s with stopDeferred := false }
    let s2 := setRunning false "idle" (stopActiveActivity reason s1)
    { s2 with runToken := s2.runToken + 1 }

/-- The runner operations that can interleave. -/
inductive ROp where
  | startOp (hasCtx hasModule modHasDone autoStarted : Bool)
  | stopOp (reason : String)
  | settleOp (k : Nat) (autoRunEnabled : Bool)
deriving DecidableEq, Repr

/-- Execute one runner operation. -/
def execOp (s : RunnerState) : ROp → RunnerState
  | .startOp c m d a => startRun c m d a s
  | .stopOp r => stopRun r s
  | .settleOp k b => settleRun k b s

/-- Execute a sequence of runner operations. -/
def execOps (s : RunnerState) (ops : List ROp) : RunnerState :=
  ops.foldl execOp s

/-! ## Helper lemmas -/

/-- `padEnd(cells, " ").substring(0, cells)` always yields exactly
`cells` characters. -/
theorem padTrunc_length (n : Nat) (l : List Char) : (padTrunc n l).length = n := by
  unfold padTrunc
  rw [List.length_take, List.length_append, List.length_replicate]
  omega

/-- Indexing into a dropped suffix. -/
theorem getD_drop (l : List Char) :
    ∀ (a b : Nat) (d : Char), (l.drop a).getD b d = l.getD (a + b) d := by
  induction l with
  | nil => intro a b d; simp
  | cons x xs ih =>
    intro a b d
    cases a with
    | zero => simp
    | succ a =>
      have h : a + 1 + b = (a + b) + 1 := by omega
      rw [h, List.drop_succ_cons, List.getD_cons_succ]
      exact ih a b d

/-- The left separator scan never moves right. -/
theorem scanSepLeft_le (line : List Char) (isSep : Char → Bool) :
    ∀ n, scanSepLeft line isSep n ≤ n := by
  intro n
  induction n with
  | zero => simp [scanSepLeft]
  | succ n ih =>
    unfold scanSepLeft
    split
    · exact Nat.le_refl _
    · exact Nat.le_trans ih (Nat.le_succ n)

/-- Every position the left scan crossed holds a non-separator. -/
theorem scanSepLeft_no_sep (line : List Char) (isSep : Char → Bool) :
    ∀ n j, scanSepLeft line isSep n ≤ j → j < n → isSep (line.getD j ' ') = false := by
  intro n
  induction n with
  | zero => intro j _ hj; omega
  | succ n ih =>
    intro j hle hj
    unfold scanSepLeft at hle
    by_cases hc : isSep (line.getD n ' ') = true
    · rw [if_pos hc] at hle; omega
    · rw [if_neg hc] at hle
      by_cases hjn : j = n
      · subst hjn; exact Bool.not_eq_true _ ▸ hc
      · exact ih j hle (by omega)

/-- The right separator scan never moves left. -/
theorem scanSepRightAux_ge (isSep : Char → Bool) :
    ∀ (suf : List Char) (e : Nat), e ≤ scanSepRightAux isSep suf e := by
  intro suf
  induction suf with
  | nil => intro e; simp [scanSepRightAux]
  | cons c rest ih =>
    intro e
    unfold scanSepRightAux
    split
    · exact Nat.le_refl _
    · exact Nat.le_trans (Nat.le_succ e) (ih (e + 1))

/-- The right separator scan stops inside the scanned suffix. -/
theorem scanSepRightAux_le (isSep : Char → Bool) :
    ∀ (suf : List Char) (e : Nat), scanSepRightAux isSep suf e ≤ e + suf.length := by
  intro suf
  induction suf with
  | nil => intro e; simp [scanSepRightAux]
  | cons c rest ih =>
    intro e
    unfold scanSepRightAux
    split
    · simp
    · have := ih (e + 1); simp at this ⊢; omega

/-- Every position the right scan crossed holds a non-separator. -/
theorem scanSepRightAux_no_sep (isSep : Char → Bool) :
    ∀ (suf : List Char) (e j : Nat), e ≤ j → j < scanSepRightAux isSep suf e →
      isSep (suf.getD (j - e) ' ') = false := by
  intro suf
  induction suf with
  | nil => intro e j hle hj; simp [scanSepRightAux] at hj; omega
  | cons c rest ih =>
    intro e j hle hj
    unfold scanSepRightAux at hj
    by_cases hc : isSep c = true
    · rw [if_pos hc] at hj; omega
    · rw [if_neg hc] at hj
      by_cases hje : j = e
      · subst hje; simp [Bool.not_eq_true _ ▸ hc]
      · have h1 : e + 1 ≤ j := by omega
        have h2 := ih (e + 1) j h1 hj
        have h3 : j - e = (j - (e + 1)) + 1 := by omega
        rw [h3, List.getD_cons_succ]
        exact h2

/-- `scanSepRight` bounds and contents, phrased on the full line. -/
theorem scanSepRight_ge (line : List Char) (isSep : Char → Bool) (e : Nat) :
    e ≤ scanSepRight line isSep e :=
  scanSepRightAux_ge isSep (line.drop e) e

/-- The right scan never leaves the line. -/
theorem scanSepRight_le (line : List Char) (isSep : Char → Bool) (e : Nat)
    (he : e ≤ line.length) : scanSepRight line isSep e ≤ line.length := by
  have := scanSepRightAux_le isSep (line.drop e) e
  rw [List.length_drop] at this
  unfold scanSepRight
  omega

/-- Positions crossed by the right scan are non-separators. -/
theorem scanSepRight_no_sep (line : List Char) (isSep : Char → Bool) (e j : Nat)
    (hle : e ≤ j) (hj : j < scanSepRight line isSep e) :
    isSep (line.getD j ' ') = false := by
  have h := scanSepRightAux_no_sep isSep (line.drop e) e j hle hj
  rw [getD_drop] at h
  have : e + (j - e) = j := by omega
  rwa [this] at h

/-! ## C2: buffer length after setting text -/

/-- C2 (counterexample): the claim "the braille line buffer after setting
`s` has length exactly CELLS … even for empty content" fails on the code:
`normalizeBrailleText` maps the empty and all-whitespace strings to the
empty string (length 0, not 40), and `BrailleUIClass.clear()` sets the
internal line to `""`. -/
theorem normalizeBrailleText_empty_not_cells :
    normalizeBrailleText [] = [] ∧
    (normalizeBrailleText "   ".data).length ≠ CELLS ∧
    (uiClear ⟨List.replicate CELLS ' ', [], [], 0⟩).line.length ≠ CELLS := by
  refine ⟨rfl, by decide, by decide⟩

/-- C2 (amended): `BrailleUIClass.setText`'s normalization
(`_normalizeLine` with `padToCells` true) always yields exactly CELLS
characters and renders empty content as all spaces; the runner's
`normalizeBrailleText`, by contrast, yields either a CELLS-length buffer
or the empty buffer, the latter exactly when the collapsed-and-trimmed
input is empty. -/
theorem braille_buffer_length_amended (t : List Char) :
    (uiNormalizeLine CELLS true t).length = CELLS ∧
    uiNormalizeLine CELLS true [] = List.replicate CELLS ' ' ∧
    ((normalizeBrailleText t).length = CELLS ∨ normalizeBrailleText t = []) ∧
    (normalizeBrailleText t = [] ↔ compactSingleLine t = []) := by
  refine ⟨?_, by decide, ?_, ?_⟩
  · simp [uiNormalizeLine, padTrunc_length]
  · unfold normalizeBrailleText
    by_cases h : compactSingleLine t = []
    · simp [h]
    · simp only [h, if_false]
      exact Or.inl (padTrunc_length _ _)
  · unfold normalizeBrailleText
    by_cases h : compactSingleLine t = []
    · simp [h]
    · simp only [h, if_false, iff_false]
      intro hc
      have := padTrunc_length CELLS (compactSingleLine t)
      rw [hc] at this
      simp [CELLS] at this

/-! ## C3: idempotence of setting text with respect to device writes -/

/-- C3 (counterexample): `BrailleUIClass.setText` sends the line to the
bridge unconditionally — two consecutive calls with the same argument
issue two outbound sends, not one. -/
theorem uiSetText_resends_identical_line :
    (uiSetText CELLS true "a".data (uiSetText CELLS true "a".data ⟨[], [], [], 0⟩)).sent.length
      = 2 := by
  decide

/-- C3 (amended): the runner's `updateBrailleLine` (exposed to activities
as `BrailleUI.setLine`) is idempotent with respect to device writes: if
two consecutive calls normalize to the same buffer and the first call
actually changes the buffer, then the second call changes nothing at all
and exactly one outbound request (send or clear) is issued across the two
calls. `BrailleUIClass.setText` does not have this property. -/
theorem updateBrailleLine_idempotent_amended (s : LineState) (t1 t2 : List Char)
    (hnorm : normalizeBrailleText t1 = normalizeBrailleText t2)
    (hnew : normalizeBrailleText t1 ≠ s.buffer) :
    updateBrailleLine t2 (updateBrailleLine t1 s) = updateBrailleLine t1 s ∧
    outboundCount (updateBrailleLine t2 (updateBrailleLine t1 s)) = outboundCount s + 1 := by
  have hfirst : updateBrailleLine t1 s =
      { buffer := normalizeBrailleText t1
        sent := if normalizeBrailleText t1 = [] then s.sent else s.sent ++ [normalizeBrailleText t1]
        clears := if normalizeBrailleText t1 = [] then s.clears + 1 else s.clears } := by
    unfold updateBrailleLine
    rw [if_neg hnew]
  have hsecond : updateBrailleLine t2 (updateBrailleLine t1 s) = updateBrailleLine t1 s := by
    rw [hfirst]
    unfold updateBrailleLine
    rw [if_pos (by rw [← hnorm])]
  refine ⟨hsecond, ?_⟩
  rw [hsecond, hfirst]
  unfold outboundCount
  by_cases hnil : normalizeBrailleText t1 = []
  · simp [hnil]; omega
  · simp [hnil]; omega

/-- C3 (witness): starting from an empty line state, setting
`"hello   world"` and then `"hello world"` (identical normalization)
issues exactly one outbound send. -/
theorem updateBrailleLine_idempotent_amended_witness :
    (normalizeBrailleText "hello   world".data = normalizeBrailleText "hello world".data ∧
      normalizeBrailleText "hello   world".data ≠ (⟨[], [], 0⟩ : LineState).buffer) ∧
    (updateBrailleLine "hello world".data (updateBrailleLine "hello   world".data ⟨[], [], 0⟩)
        = updateBrailleLine "hello   world".data ⟨[], [], 0⟩ ∧
      outboundCount
          (updateBrailleLine "hello world".data
            (updateBrailleLine "hello   world".data ⟨[], [], 0⟩))
        = outboundCount ⟨[], [], 0⟩ + 1) :=
  ⟨⟨by decide, by decide⟩,
    updateBrailleLine_idempotent_amended ⟨[], [], 0⟩ _ _ (by decide) (by decide)⟩

/-! ## C4: word spans from `getWordAt` -/

/-- Soundness of the fallback separator scan: it returns nothing on a
separator cell, and any span it returns contains the queried index and
no separator. -/
theorem getWordAtScan_sound (line : List Char) (isSep : Char → Bool) (i : Nat)
    (hi : i < line.length) :
    (isSep (line.getD i ' ') = true → getWordAtScan line isSep i = none) ∧
    ∀ info, getWordAtScan line isSep i = some info →
      info.start ≤ i ∧ i < info.stop ∧ info.stop ≤ line.length ∧
      ∀ j, info.start ≤ j → j < info.stop → isSep (line.getD j ' ') = false := by
  by_cases hsep : isSep (line.getD i ' ') = true
  · refine ⟨fun _ => ?_, fun info hinfo => ?_⟩
    · unfold getWordAtScan; rw [if_pos hsep]
    · unfold getWordAtScan at hinfo; rw [if_pos hsep] at hinfo; cases hinfo
  · refine ⟨fun h => absurd h hsep, fun info hinfo => ?_⟩
    unfold getWordAtScan at hinfo
    rw [if_neg hsep] at hinfo
    simp only at hinfo
    by_cases hw : trimWs ((line.drop (scanSepLeft line isSep i)).take
        (scanSepRight line isSep (i + 1) - scanSepLeft line isSep i)) = []
    · rw [if_pos hw] at hinfo; cases hinfo
    · rw [if_neg hw] at hinfo
      cases hinfo
      refine ⟨scanSepLeft_le line isSep i, ?_, ?_, ?_⟩
      · have := scanSepRight_ge line isSep (i + 1); dsimp only; omega
      · dsimp only; exact scanSepRight_le line isSep (i + 1) (by omega)
      · intro j hj1 hj2
        dsimp only at hj1 hj2
        rcases Nat.lt_trichotomy j i with hlt | heq | hgt
        · exact scanSepLeft_no_sep line isSep i j hj1 hlt
        · subst heq; exact Bool.not_eq_true _ ▸ hsep
        · exact scanSepRight_no_sep line isSep (i + 1) j (by omega) hj2

/-- C4 (counterexample): on the token-map path the claimed "no separator
inside the span" fails. After `setTokens(["ab cd"])` the token map covers
the embedded space, and `getWordAt(2)` returns the span `[0, 5)` although
cell 2 holds the separator `' '`. -/
theorem getWordAt_token_span_contains_separator :
    getWordAt (buildLineFromTokens CELLS true ["ab cd"]).1
        (buildLineFromTokens CELLS true ["ab cd"]).2 defaultSep 2
      = some ⟨"ab cd", 0, 5⟩ ∧
    (buildLineFromTokens CELLS true ["ab cd"]).1.getD 2 ' ' = ' ' ∧
    defaultSep ((buildLineFromTokens CELLS true ["ab cd"]).1.getD 2 ' ') = true := by
  refine ⟨by decide, by decide, by decide⟩

/-- C4 (amended): for every index not covered by the token map (the
fallback scan), `getWordAt` returns nothing when the cell at the index is
a separator, and any span it returns is a half-open range `[start, stop)`
inside the line that contains the index and no separator character. A
token-map hit instead returns the logical token, whose range may contain
separator characters embedded in the token. -/
theorem getWordAt_fallback_sound (line : List Char) (map : List (Nat × String))
    (isSep : Char → Bool) (index : Int)
    (hmap : tokenLookup map index.toNat = none) :
    ((¬(index < 0 ∨ (line.length : Int) ≤ index)) →
      isSep (line.getD index.toNat ' ') = true →
      getWordAt line map isSep index = none) ∧
    ∀ info, getWordAt line map isSep index = some info →
      info.start ≤ index.toNat ∧ index.toNat < info.stop ∧ info.stop ≤ line.length ∧
      ∀ j, info.start ≤ j → j < info.stop → isSep (line.getD j ' ') = false := by
  by_cases hr : index < 0 ∨ (line.length : Int) ≤ index
  · refine ⟨fun habs _ => absurd hr habs, fun info hinfo => ?_⟩
    unfold getWordAt at hinfo
    rw [if_pos hr] at hinfo
    cases hinfo
  · have hi : index.toNat < line.length := by
      push_neg at hr
      omega
    have hred : getWordAt line map isSep index = getWordAtScan line isSep index.toNat := by
      unfold getWordAt
      rw [if_neg hr]
      simp only [hmap]
    have hsound := getWordAtScan_sound line isSep index.toNat hi
    refine ⟨fun _ hsep => ?_, fun info hinfo => ?_⟩
    · rw [hred]; exact hsound.1 hsep
    · rw [hred] at hinfo; exact hsound.2 info hinfo

/-- C4 (witness): on the buffer for `"hello   world"` with the default
whitespace separators and no token map, `getWordAt(7)` returns the span
`"world"` `[6, 11)`, which contains index 7 and no separator. -/
theorem getWordAt_fallback_sound_witness :
    tokenLookup [] ((7 : Int)).toNat = none ∧
    (((¬((7 : Int) < 0 ∨ ((normalizeBrailleText "hello   world".data).length : Int) ≤ 7)) →
        defaultSep ((normalizeBrailleText "hello   world".data).getD ((7 : Int)).toNat ' ')
          = true →
        getWordAt (normalizeBrailleText "hello   world".data) [] defaultSep 7 = none) ∧
      ∀ info,
        getWordAt (normalizeBrailleText "hello   world".data) [] defaultSep 7 = some info →
        info.start ≤ ((7 : Int)).toNat ∧ ((7 : Int)).toNat < info.stop ∧
          info.stop ≤ (normalizeBrailleText "hello   world".data).length ∧
          ∀ j, info.start ≤ j → j < info.stop →
            defaultSep ((normalizeBrailleText "hello   world".data).getD j ' ') = false) :=
  ⟨rfl, getWordAt_fallback_sound (normalizeBrailleText "hello   world".data) [] defaultSep 7 rfl⟩

/-! ## C5: number sign once per maximal digit run -/

/-- After processing one character, `inNumberRun` holds exactly when that
character was a digit (spaces and other non-digits reset it), so the tail
of `coerceAux` always recurses with flag `isAsciiDigit ch`. -/
theorem coerceAux_get_succ (cap ch : Char) (rest : List Char)
    (cs : List (Option (List Char))) (inRun : Bool) (j : Nat) :
    (coerceAux cap inRun (ch :: rest) cs).get? (j + 1) =
      (coerceAux cap (isAsciiDigit ch) rest (cs.drop 1)).get? j := by
  by_cases h1 : ch = ' '
  · have hd : isAsciiDigit ch = false := by subst h1; decide
    simp [coerceAux, h1, hd, show isAsciiDigit ' ' = false from rfl]
  · by_cases h2 : isAsciiDigit ch = true
    · simp [coerceAux, h1, h2]
    · have hd : isAsciiDigit ch = false := by
        cases h : isAsciiDigit ch
        · rfl
        · exact absurd h h2
      rcases hp : braillePunct ch with _ | p
      · rcases hb : brailleLetter ch.toLower with _ | base
        · simp [coerceAux, h1, hd, hp, hb]
        · simp [coerceAux, h1, hd, hp, hb]
      · simp [coerceAux, h1, hd, hp]

/-- The digit cell produced by `coerceAux`: the number sign appears
exactly when the run flag is off (first char) or the previous character
is not a digit. -/
theorem coerceAux_digit_cell (cap : Char) :
    ∀ (text : List Char) (cs : List (Option (List Char))) (inRun : Bool) (i : Nat),
      i < text.length → isAsciiDigit (text.getD i ' ') = true →
      (coerceAux cap inRun text cs).get? i =
        some (if (if i = 0 then inRun = false else isAsciiDigit (text.getD (i - 1) ' ') = false)
          then signNumber :: [digitCellOf (text.getD i ' ')]
          else [digitCellOf (text.getD i ' ')]) := by
  intro text
  induction text with
  | nil => intro cs inRun i hi; simp at hi
  | cons ch rest ih =>
    intro cs inRun i hi hd
    cases i with
    | zero =>
      simp only [List.getD_cons_zero] at hd
      have hns : ch ≠ ' ' := by
        intro h; subst h; simp [isAsciiDigit] at hd
      cases inRun with
      | false => simp [coerceAux, hns, hd]
      | true => simp [coerceAux, hns, hd]
    | succ j =>
      rw [coerceAux_get_succ]
      have hj : j < rest.length := by simp at hi; omega
      have hdj : isAsciiDigit (rest.getD j ' ') = true := by
        rw [List.getD_cons_succ] at hd; exact hd
      rw [ih (cs.drop 1) (isAsciiDigit ch) j hj hdj]
      cases j with
      | zero => simp
      | succ k => simp

/-- C5 (counterexample): the transliteration `toBrailleUnicode` in
words.js looks every digit up in a table whose digit entries each carry
their own number sign: the single maximal digit run `"23"` is rendered
with two number signs, not one. -/
theorem toBrailleUnicode_sign_per_digit :
    toBrailleUnicode "23" = "⠼⠃⠼⠉" ∧
    (toBrailleUnicode "23").data.count signNumber = 2 := by
  refine ⟨by decide, by decide⟩

/-- C5 (amended): the braille monitor's transliteration (`coerceCells`,
which post-processes every translator output) emits the number sign
exactly at the first digit of each maximal run of consecutive digits and
never before a later digit of the same run, for every input text and
translator output; words.js's auxiliary `toBrailleUnicode` instead emits
a number sign before every digit. -/
theorem coerceCells_sign_once_per_run (lang : String) (text : List Char)
    (cs : List (Option (List Char))) (i : Nat)
    (hi : i < text.length) (hd : isAsciiDigit (text.getD i ' ') = true) :
    (coerceCells lang text cs).get? i =
      some (if i = 0 ∨ isAsciiDigit (text.getD (i - 1) ' ') = false
        then signNumber :: [digitCellOf (text.getD i ' ')]
        else [digitCellOf (text.getD i ' ')]) := by
  unfold coerceCells
  rw [coerceAux_digit_cell (capitalSignForLang lang) text cs false i hi hd]
  cases i with
  | zero => simp
  | succ k =>
    cases h : isAsciiDigit (text.getD (k + 1 - 1) ' ') with
    | false => simp [h]
    | true => simp [h]

/-- C5 (witness): in `"A1b23"` the digit `'3'` (index 4) sits inside the
run `"23"` and gets a bare digit glyph with no number sign, while the
run-initial `'2'` (index 3) would get the sign. -/
theorem coerceCells_sign_once_per_run_witness :
    ((4 : Nat) < "A1b23".data.length ∧ isAsciiDigit ("A1b23".data.getD 4 ' ') = true) ∧
    (coerceCells "nl" "A1b23".data (List.replicate 5 none)).get? 4 =
      some (if (4 : Nat) = 0 ∨ isAsciiDigit ("A1b23".data.getD (4 - 1) ' ') = false
        then signNumber :: [digitCellOf ("A1b23".data.getD 4 ' ')]
        else [digitCellOf ("A1b23".data.getD 4 ' ')]) :=
  ⟨⟨by decide, by decide⟩,
    coerceCells_sign_once_per_run "nl" "A1b23".data (List.replicate 5 none) 4
      (by decide) (by decide)⟩

/-! ## C6: reconnect backoff policy -/

/-- The delay invariant is preserved by every connection outcome. -/
theorem bridgeStep_invariant (s : BridgeState) (e : BridgeEv)
    (h1 : s.currentDelay ≤ 10000) (h2 : s.scheduled.all (· ≤ 10000) = true) :
    (bridgeStep 2000 10000 s e).currentDelay ≤ 10000 ∧
      (bridgeStep 2000 10000 s e).scheduled.all (· ≤ 10000) = true := by
  cases e with
  | fail =>
    refine ⟨Nat.min_le_right _ _, ?_⟩
    simp only [bridgeStep, List.all_append, List.all_cons, List.all_nil, Bool.and_true]
    rw [h2]
    simpa using h1
  | succeed => exact ⟨by simp [bridgeStep], h2⟩

/-- The invariant holds along any run of connection outcomes. -/
theorem bridgeRun_invariant :
    ∀ (es : List BridgeEv) (s : BridgeState),
      s.currentDelay ≤ 10000 → s.scheduled.all (· ≤ 10000) = true →
      (bridgeRun 2000 10000 s es).currentDelay ≤ 10000 ∧
        (bridgeRun 2000 10000 s es).scheduled.all (· ≤ 10000) = true := by
  intro es
  induction es with
  | nil => intro s h1 h2; exact ⟨h1, h2⟩
  | cons e rest ih =>
    intro s h1 h2
    have hstep := bridgeStep_invariant s e h1 h2
    exact ih (bridgeStep 2000 10000 s e) hstep.1 hstep.2

/-- C6 (confirmed): with the default configuration
(`reconnectDelay = 2000`, `maxReconnectDelay = 10000`), three consecutive
failed attempts schedule reconnects after 2000, 4000 and 8000 ms; every
scheduled delay in every run stays ≤ 10000 ms; a successful connection
resets the delay to 2000 ms; and each failure doubles the delay, capped
at 10000 ms, after scheduling the current one. -/
theorem reconnect_delay_policy (es : List BridgeEv) (s : BridgeState) :
    (bridgeRun 2000 10000 (initBridge 2000) [.fail, .fail, .fail]).scheduled
        = [2000, 4000, 8000] ∧
    (bridgeRun 2000 10000 (initBridge 2000) es).scheduled.all (· ≤ 10000) = true ∧
    (bridgeRun 2000 10000 (initBridge 2000) (es ++ [.succeed])).currentDelay = 2000 ∧
    (bridgeStep 2000 10000 s .fail).currentDelay = min (s.currentDelay * 2) 10000 ∧
    (bridgeStep 2000 10000 s .fail).scheduled = s.scheduled ++ [s.currentDelay] := by
  refine ⟨by decide, ?_, ?_, rfl, rfl⟩
  · exact (bridgeRun_invariant es (initBridge 2000) (by decide) (by decide)).2
  · unfold bridgeRun
    rw [List.foldl_append]
    rfl

/-! ## C7: out-of-range cursor indices -/

/-- C7 (counterexample): with a 40-cell buffer, the out-of-range cursor
index 40 still produces a forwarded cursor event to the active activity
handler (with a blank letter and an empty word) — it is not dropped. -/
theorem dispatchCursorSelection_forwards_out_of_range :
    (normalizeBrailleText "hello".data).length = CELLS ∧
    dispatchCursorSelection (normalizeBrailleText "hello".data) true (some 40)
      = some ⟨some 40, ' ', ""⟩ := by
  refine ⟨by decide, by decide⟩

/-- C7 (amended): a cursor index outside `[0, CELLS)` never produces a
WordSpan — `computeWordAt` returns the empty word and `getWordAt` returns
nothing — but `dispatchCursorSelection` still forwards a cursor event
(with letter `' '` and word `""`) to the active handler whenever one is
present. -/
theorem out_of_range_cursor_no_wordspan (line : List Char) (map : List (Nat × String))
    (isSep : Char → Bool) (i : Int) (hasHandler : Bool)
    (hout : i < 0 ∨ (line.length : Int) ≤ i) :
    computeWordAt line i = "" ∧
    getWordAt line map isSep i = none ∧
    dispatchCursorSelection line hasHandler (some i)
      = (if hasHandler then some ⟨some i, ' ', ""⟩ else none) := by
  have hword : computeWordAt line i = "" := by
    unfold computeWordAt
    by_cases hnil : line = []
    · rw [if_pos hnil]
    · rw [if_neg hnil, if_pos hout]
  refine ⟨hword, ?_, ?_⟩
  · unfold getWordAt
    rw [if_pos hout]
  · unfold dispatchCursorSelection
    have hlet : ¬(0 ≤ i ∧ i < (line.length : Int)) := by omega
    dsimp only
    rw [if_neg hlet, hword]

/-- C7 (witness): index −1 against the buffer for `"abc"` yields no word
and no span, and the forwarded event carries a blank letter and empty
word. -/
theorem out_of_range_cursor_no_wordspan_witness :
    ((-1 : Int) < 0 ∨ ((normalizeBrailleText "abc".data).length : Int) ≤ -1) ∧
    (computeWordAt (normalizeBrailleText "abc".data) (-1) = "" ∧
      getWordAt (normalizeBrailleText "abc".data) [] defaultSep (-1) = none ∧
      dispatchCursorSelection (normalizeBrailleText "abc".data) true (some (-1))
        = (if true then some ⟨some (-1), ' ', ""⟩ else none)) :=
  ⟨Or.inl (by decide),
    out_of_range_cursor_no_wordspan (normalizeBrailleText "abc".data) [] defaultSep (-1) true
      (Or.inl (by decide))⟩

/-! ## C8: cursor-routing messages without a numeric index -/

/-- `??` yields one of its two operands. -/
theorem jsCoalesce_eq_or (a b : Option JVal) : jsCoalesce a b = a ∨ jsCoalesce a b = b := by
  cases a with
  | none => exact Or.inr rfl
  | some v =>
    cases v with
    | str s => exact Or.inl rfl
    | num n => exact Or.inl rfl
    | boolean b' => exact Or.inl rfl
    | jnull => exact Or.inr rfl

/-- The coalesced index is one of the four recognized index fields. -/
theorem msgIdx_cases (m : WireMsg) :
    msgIdx m = m.cursorIndexLower ∨ msgIdx m = m.cursorIndexUpper ∨
      msgIdx m = m.indexField ∨ msgIdx m = m.btn := by
  unfold msgIdx
  rcases jsCoalesce_eq_or
      (jsCoalesce (jsCoalesce m.cursorIndexLower m.cursorIndexUpper) m.indexField) m.btn
    with h1 | h1
  · rw [h1]
    rcases jsCoalesce_eq_or (jsCoalesce m.cursorIndexLower m.cursorIndexUpper) m.indexField
      with h2 | h2
    · rw [h2]
      rcases jsCoalesce_eq_or m.cursorIndexLower m.cursorIndexUpper with h3 | h3
      · exact Or.inl h3
      · exact Or.inr (Or.inl h3)
    · exact Or.inr (Or.inr (Or.inl h2))
  · exact Or.inr (Or.inr (Or.inr h1))

/-- A cursor-routing message in which the user released the key
(`press: false`) and which carries no index at all. -/
def releasedCursorMsg : WireMsg :=
  { kindLower := some (.str "cursorrouting"), pressField := some (.boolean false) }

/-- C8 (counterexample): `releasedCursorMsg` is a cursor-routing message
none of whose recognized index fields is a number, yet the handler
returns after the key-up guard (`if (!press) return;`) without emitting
any `error{type:"cursor"}` event — it is silently dropped. -/
theorem released_cursor_message_dropped :
    isCursorKind releasedCursorMsg = true ∧
    hasNumericIndexField releasedCursorMsg = false ∧
    handleWsMessage releasedCursorMsg = [.raw, .message] := by
  refine ⟨by decide, by decide, by decide⟩

/-- C8 (amended): for every key-down (`press` not explicitly false)
cursor-routing message that is not a braille-line echo and in which none
of the recognized index fields is a number, the handler emits exactly
`raw`, `message` and `error{type:"cursor"}` — in particular the missing
index is reported and no cursor event is emitted. A key-up
(`press: false`) cursor message is instead dropped after classification
with no error. -/
theorem cursor_error_reported_on_keydown (m : WireMsg)
    (hp : msgPress m = true) (hb : msgType m ≠ "brailleline")
    (hc : isCursorKind m = true) (hn : hasNumericIndexField m = false) :
    handleWsMessage m = [.raw, .message, .errCursor] := by
  have hidx : ∀ i : Int, msgIdx m ≠ some (JVal.num i) := by
    intro i hEq
    rcases msgIdx_cases m with h | h | h | h <;>
      (rw [hEq] at h
       simp [hasNumericIndexField, ← h] at hn)
  unfold handleWsMessage
  rw [if_neg hb, if_neg (by simp [hp]), if_pos (by simp [hc])]
  rcases hI : msgIdx m with _ | v
  · rfl
  · cases v with
    | str s => rfl
    | num n => exact absurd hI (hidx n)
    | boolean b => rfl
    | jnull => rfl

/-- C8 (witness): a cursor-routing key-down message with no index fields
at all is answered with the `error{type:"cursor"}` event. -/
theorem cursor_error_reported_on_keydown_witness :
    (msgPress { kindLower := some (.str "cursorrouting") } = true ∧
      msgType { kindLower := some (.str "cursorrouting") } ≠ "brailleline" ∧
      isCursorKind { kindLower := some (.str "cursorrouting") } = true ∧
      hasNumericIndexField { kindLower := some (.str "cursorrouting") } = false) ∧
    handleWsMessage { kindLower := some (.str "cursorrouting") }
      = [.raw, .message, .errCursor] :=
  ⟨⟨by decide, by decide, by decide, by decide⟩,
    cursor_error_reported_on_keydown { kindLower := some (.str "cursorrouting") }
      (by decide) (by decide) (by decide) (by decide)⟩

/-! ## C9: `stop()` while idle -/

/-- C9 (confirmed): `stop(reason)` called while no activity run is in
progress is a complete no-op — `if (!running) return;` leaves the token,
the running flag, the module slot and the effect log (observer
notifications, module stops) untouched. Both activity-runner variants
(with and without the stop sound) begin `stop` with the same guard. -/
theorem stop_when_idle_noop (s : RunnerState) (reason : String)
    (h : s.running = false) : stopRun reason s = s := by
  unfold stopRun
  rw [if_pos (by simp [h])]

/-- C9 (witness): a concrete idle state with a nonzero token is left
exactly as it is by `stop("stop")`. -/
theorem stop_when_idle_noop_witness :
    (⟨5, false, false, false, false, []⟩ : RunnerState).running = false ∧
    stopRun "stop" (⟨5, false, false, false, false, []⟩ : RunnerState)
      = (⟨5, false, false, false, false, []⟩ : RunnerState) :=
  ⟨rfl, stop_when_idle_noop ⟨5, false, false, false, false, []⟩ "stop" rfl⟩

/-! ## C1: run token monotonicity and stale-settlement no-op -/

/-- `setRunning` never touches the token. -/
theorem setRunning_runToken (b : Bool) (st : String) (s : RunnerState) :
    (setRunning b st s).runToken = s.runToken := rfl

/-- `stopActiveActivity` never touches the token. -/
theorem stopActiveActivity_runToken (r : String) (s : RunnerState) :
    (stopActiveActivity r s).runToken = s.runToken := rfl

/-- `cancelRun` advances the token by exactly one. -/
theorem cancelRunR_runToken (r : String) (s : RunnerState) :
    (cancelRunR r s).runToken = s.runToken + 1 := rfl

/-- No single runner operation ever decreases the token. -/
theorem execOp_runToken_le (s : RunnerState) (op : ROp) :
    s.runToken ≤ (execOp s op).runToken := by
  cases op with
  | startOp c m d a =>
    show s.runToken ≤ (startRun c m d a s).runToken
    unfold startRun
    by_cases hc : ¬c = true
    · rw [if_pos hc]
    · rw [if_neg hc]
      cases m <;> simp [setRunning, stopActiveActivity, cancelRunR]
  | stopOp r =>
    show s.runToken ≤ (stopRun r s).runToken
    unfold stopRun
    by_cases hr : ¬s.running = true
    · rw [if_pos hr]
    · rw [if_neg hr]
      simp [setRunning, stopActiveActivity]
  | settleOp k b =>
    show s.runToken ≤ (settleRun k b s).runToken
    unfold settleRun
    by_cases hk : k ≠ s.runToken
    · rw [if_pos hk]
    · rw [if_neg hk]
      cases b <;> simp [setRunning, stopActiveActivity]

/-- No sequence of runner operations ever decreases the token. -/
theorem execOps_runToken_le : ∀ (ops : List ROp) (s : RunnerState),
    s.runToken ≤ (execOps s ops).runToken := by
  intro ops
  induction ops with
  | nil => intro s; exact Nat.le_refl _
  | cons op rest ih =>
    intro s
    exact Nat.le_trans (execOp_runToken_le s op) (ih (execOp s op))

/-- C1 (confirmed): across any sequence of `start`/`stop`/settle
operations the run token only increases, and the `finally` continuation
of a run that captured token `k` is a complete no-op — no state change,
no observer notification, no module stop, no auto-advance — whenever the
live token has moved past `k` (`if (token !== runToken) return;`). -/
theorem runToken_monotone_stale_settle_noop (s : RunnerState) (ops : List ROp)
    (k : Nat) (autoRun : Bool) (hstale : k < s.runToken) :
    s.runToken ≤ (execOps s ops).runToken ∧ settleRun k autoRun s = s := by
  refine ⟨execOps_runToken_le ops s, ?_⟩
  unfold settleRun
  rw [if_pos (Nat.ne_of_lt hstale)]

/-- C1 (witness): in a state with live token 2, a continuation that
captured token 1 settles without any effect, and a further `start` only
raises the token. -/
theorem runToken_monotone_stale_settle_noop_witness :
    (1 : Nat) < (⟨2, false, false, false, false, []⟩ : RunnerState).runToken ∧
    ((⟨2, false, false, false, false, []⟩ : RunnerState).runToken ≤
        (execOps ⟨2, false, false, false, false, []⟩
          [ROp.startOp true true false false]).runToken ∧
      settleRun 1 true (⟨2, false, false, false, false, []⟩ : RunnerState)
        = (⟨2, false, false, false, false, []⟩ : RunnerState)) :=
  ⟨by decide,
    runToken_monotone_stale_settle_noop ⟨2, false, false, false, false, []⟩
      [ROp.startOp true true false false] 1 true (by decide)⟩

/-! ## C10: emitter isolates handler exceptions -/

/-- `emit` runs every subscribed handler on the payload in order and
returns normally, because each call is individually wrapped in
`try`/`catch`. -/
theorem emitRun_ok {P E : Type} : ∀ (hs : List (P → Except E Unit)) (p : P),
    emitRun hs p = Except.ok (hs.map (fun f => f p)) := by
  intro hs
  induction hs with
  | nil => intro p; rfl
  | cons h t ih =>
    intro p
    show (do
      let _ ← swallow (h p)
      let rest ← emitRun t p
      Except.ok (h p :: rest)) = _
    cases hhp : h p with
    | ok u =>
      simp only [swallow, hhp, ih, List.map_cons]
      rfl
    | error e =>
      simp only [swallow, hhp, ih, List.map_cons]
      rfl

/-- C10 (confirmed): if one subscribed handler throws, `emit` catches the
exception internally, still invokes every other handler (before and
after the throwing one) with the payload, and never propagates the
exception to the emitting code — the emitter shared by the Connection
Manager and the BrailleUI layer. -/
theorem emit_isolates_handler_exception {P E : Type}
    (pre post : List (P → Except E Unit)) (h : P → Except E Unit) (p : P) (e : E)
    (_hthrows : h p = Except.error e) :
    emitRun (pre ++ h :: post) p
      = Except.ok ((pre ++ h :: post).map (fun f => f p)) :=
  emitRun_ok (pre ++ h :: post) p

/-- C10 (witness): with a throwing handler between two ordinary ones,
`emit` still calls all three with the payload and returns normally. -/
theorem emit_isolates_handler_exception_witness :
    ((fun _ : Nat => (Except.error "boom" : Except String Unit)) 0
        = Except.error "boom") ∧
    emitRun ([fun _ : Nat => (Except.ok () : Except String Unit)] ++
        (fun _ : Nat => (Except.error "boom" : Except String Unit)) ::
          [fun _ : Nat => (Except.ok () : Except String Unit)]) 0
      = Except.ok (([fun _ : Nat => (Except.ok () : Except String Unit)] ++
          (fun _ : Nat => (Except.error "boom" : Except String Unit)) ::
            [fun _ : Nat => (Except.ok () : Except String Unit)]).map (fun f => f 0)) :=
  ⟨rfl,
    emit_isolates_handler_exception
      [fun _ : Nat => (Except.ok () : Except String Unit)]
      [fun _ : Nat => (Except.ok () : Except String Unit)]
      (fun _ : Nat => (Except.error "boom" : Except String Unit)) 0 "boom" rfl⟩

end BrailleServer
